import Mathlib

/-
Verification development for the hidtool HID Report Descriptor parser
(src/src/hid_report_desc.cpp, src/inc/hid_report_desc.h) and the hidraw
device transport (src/unnamed/part_002).

Bytes are modelled as natural numbers; every read of a `uint8_t` value is
taken modulo 256, every `uint16_t` cast modulo 65536, mirroring the C++
types.  Machine-integer wraparound that matters (the `uint32_t` loop
counter in the usage-range expansion) is modelled with an explicit
`% 4294967296`.  The only possibly non-terminating construct of the C++
code, that expansion loop, is modelled with an explicit fuel parameter:
`none` means the loop did not finish within the given fuel, and theorems
below characterise exactly when no fuel suffices (the loop runs forever).
-/

set_option maxRecDepth 8000
set_option maxHeartbeats 4000000

namespace HidTool

/-! ## Item tokenizer (hid_report_desc.cpp, `struct item` and `parse_item`) -/

/-- The `struct item` type: size is 0,1,2,4 (255 marks a long item), type is
0=Main,1=Global,2=Local,3=Reserved, tag is the 4-bit tag, data the
zero-extended data word. -/
structure Item where
  size : Nat := 0
  type : Nat := 0
  tag : Nat := 0
  data : Nat := 0
deriving DecidableEq

/-- Little-endian read of up to `n` data bytes (`v |= byte << (8*i)`),
stopping early at end of input; returns the value and the rest. -/
def readLE : Nat → List Nat → Nat × List Nat
  | 0, bs => (0, bs)
  | _ + 1, [] => (0, [])
  | n + 1, b :: bs =>
    let pr := readLE n bs
    (b % 256 + 256 * pr.1, pr.2)

/-- The `parse_item` function: consume one item from the byte stream.  A long item
(prefix 0xFE) with its two header bytes present skips
`min(dataSize, remaining)` data bytes and yields a Reserved marker; a
truncated long-item header consumes only the prefix and yields the
all-zero item.  A short item decodes size/type/tag from the prefix and
reads its data bytes little-endian. -/
def parseItem : List Nat → Item × List Nat
  | [] => ({}, [])
  | b :: bs =>
    let pfx := b % 256
    if pfx = 254 then
      match bs with
      | dsz :: _ :: rest =>
        ({ size := 255, type := 3, tag := 255, data := 0 }, rest.drop (dsz % 256))
      | _ => ({}, bs)
    else
      let szCode := pfx % 4
      let sz := if szCode = 3 then 4 else szCode
      let pr := readLE sz bs
      ({ size := sz, type := pfx / 4 % 4, tag := pfx / 16 % 16, data := pr.1 }, pr.2)

/-- Tokenize a whole stream; `steps` bounds the number of iterations and
`steps = length` always suffices because every iteration consumes at
least the prefix byte. -/
def tokenizeSteps : Nat → List Nat → List Item
  | _, [] => []
  | 0, _ :: _ => []
  | steps + 1, b :: tl =>
    let pr := parseItem (b :: tl)
    pr.1 :: tokenizeSteps steps pr.2

/-- The item sequence of a byte stream. -/
def tokenizeAll (bs : List Nat) : List Item :=
  tokenizeSteps bs.length bs

/-- The `sign_extend` helper: reinterpret the zero-extended data word as a signed
value of the item's width (8/16/32 bits; any other width behaves like the
`int32_t` default case). -/
def signExtend (v : Nat) (size : Nat) : Int :=
  match size with
  | 1 => if v % 256 < 128 then ((v % 256 : Nat) : Int) else ((v % 256 : Nat) : Int) - 256
  | 2 => if v % 65536 < 32768 then ((v % 65536 : Nat) : Int) else ((v % 65536 : Nat) : Int) - 65536
  | _ =>
    if v % 4294967296 < 2147483648 then ((v % 4294967296 : Nat) : Int)
    else ((v % 4294967296 : Nat) : Int) - 4294967296

/-- The `(int8_t)` conversion applied to the sign-extended unit exponent. -/
def toInt8 (x : Int) : Int :=
  let r := x.emod 256
  if r < 128 then r else r - 256

/-! ## Evaluator state (hid_report_desc.cpp, `global_state` / `local_state`) -/

/-- The `global_state` structure. -/
structure GlobalState where
  usage_page : Nat := 0
  report_id : Nat := 0
  report_size_bits : Nat := 0
  report_count : Nat := 0
  logical_min : Int := 0
  logical_max : Int := 0
  physical_min : Int := 0
  physical_max : Int := 0
  unit : Nat := 0
  unit_exponent : Int := 0
deriving DecidableEq

/-- The `local_state` structure; the default value is the cleared state. -/
structure LocalState where
  usages : List Nat := []
  has_usage_minmax : Bool := false
  usage_min : Nat := 0
  usage_max : Nat := 0
deriving DecidableEq

/-- The Global-item dispatch of `report_descriptor_tree::parse`
(case 1 of the main switch): updates the global state and the
push/pop stack of saved global states. -/
def applyGlobal (g : GlobalState) (gstack : List GlobalState) (it : Item) :
    GlobalState × List GlobalState :=
  if it.tag = 0 then ({ g with usage_page := it.data % 65536 }, gstack)
  else if it.tag = 1 then ({ g with logical_min := signExtend it.data it.size }, gstack)
  else if it.tag = 2 then ({ g with logical_max := signExtend it.data it.size }, gstack)
  else if it.tag = 3 then ({ g with physical_min := signExtend it.data it.size }, gstack)
  else if it.tag = 4 then ({ g with physical_max := signExtend it.data it.size }, gstack)
  else if it.tag = 5 then ({ g with unit_exponent := toInt8 (signExtend it.data it.size) }, gstack)
  else if it.tag = 6 then ({ g with unit := it.data }, gstack)
  else if it.tag = 7 then ({ g with report_size_bits := it.data }, gstack)
  else if it.tag = 8 then ({ g with report_id := it.data % 256 }, gstack)
  else if it.tag = 9 then ({ g with report_count := it.data }, gstack)
  else if it.tag = 10 then (g, g :: gstack)
  else if it.tag = 11 then
    match gstack with
    | [] => (g, [])
    | top :: rest => (top, rest)
  else (g, gstack)

/-- The Local-item dispatch of `report_descriptor_tree::parse`
(case 2 of the main switch). -/
def applyLocal (l : LocalState) (it : Item) : LocalState :=
  if it.tag = 0 then { l with usages := l.usages ++ [it.data] }
  else if it.tag = 1 then { l with has_usage_minmax := true, usage_min := it.data }
  else if it.tag = 2 then { l with has_usage_minmax := true, usage_max := it.data }
  else l

/-! ## Report fields and the usage-range expansion loop -/

/-- The `field_kind` enumeration. -/
inductive FieldKind where
  | input
  | output
  | feature
deriving DecidableEq

/-- The `report_field` structure; `flags` is the raw flags byte. -/
structure ReportField where
  kind : FieldKind := .input
  report_id : Nat := 0
  usage_page : Nat := 0
  usages : List Nat := []
  report_size_bits : Nat := 0
  report_count : Nat := 0
  logical_min : Int := 0
  logical_max : Int := 0
  physical_min : Int := 0
  physical_max : Int := 0
  unit : Nat := 0
  unit_exponent : Int := 0
  flags : Nat := 0
deriving DecidableEq

/-- The C++ loop `for (uint32_t u = usage_min; u <= usage_max; ++u)
f.usages.push_back(u)`.  The counter is a `uint32_t`, so the increment
wraps modulo 2^32; `fuel` bounds the number of iterations modelled, and
`none` means the loop did not finish within `fuel` iterations. -/
def expandLoop : Nat → Nat → Nat → List Nat → Option (List Nat)
  | 0, _, _, _ => none
  | fuel + 1, u, hi, acc =>
    if u ≤ hi then expandLoop fuel ((u + 1) % 4294967296) hi (acc ++ [u])
    else some acc

/-- Construction of a `report_field` at a Main Input/Output/Feature item
(hid_report_desc.cpp lines 246-265): kind from the tag, flags byte from
the item data, all numeric attributes copied from the global state, and
usages either expanded from the local usage range (when
`has_usage_minmax` is set) or taken from the accumulated local usages. -/
def mkField (efuel : Nat) (g : GlobalState) (l : LocalState) (tag : Nat) (data : Nat) :
    Option ReportField :=
  let kind : FieldKind := if tag = 8 then .input else if tag = 9 then .output else .feature
  let usages? : Option (List Nat) :=
    if l.has_usage_minmax then expandLoop efuel l.usage_min l.usage_max []
    else if l.usages ≠ [] then some l.usages
    else some []
  match usages? with
  | none => none
  | some us =>
    some { kind := kind, report_id := g.report_id, usage_page := g.usage_page, usages := us,
           report_size_bits := g.report_size_bits, report_count := g.report_count,
           logical_min := g.logical_min, logical_max := g.logical_max,
           physical_min := g.physical_min, physical_max := g.physical_max,
           unit := g.unit, unit_exponent := g.unit_exponent, flags := data % 256 }

/-! ## Collection tree (hid_report_desc.h, `collection_node`) -/

mutual
/-- The `collection_node` structure: collection type code, usage page and usage
snapshot at open, the fields appended under it, and the child
collections in order.  `nodeId` models the node's heap address (nodes
are held behind `std::unique_ptr` and never move, so it is stable) and
`gen` models the allocation (data pointer) of the node's
`std::vector<report_field> fields` at the end of parsing: each
reallocation of that vector yields a fresh allocation, so a stored
element pointer is valid only if its recorded allocation equals the
vector's final one. -/
inductive CollectionNode where
  | mk (nodeId : Nat) (gen : Nat) (ctype : Nat) (usage_page : Nat) (usage : Nat)
       (fields : List ReportField) (children : CollectionForest) : CollectionNode
/-- The ordered children (`std::vector<std::unique_ptr<collection_node>>`). -/
inductive CollectionForest where
  | nil : CollectionForest
  | cons (c : CollectionNode) (cs : CollectionForest) : CollectionForest
end

deriving instance DecidableEq for CollectionNode

def CollectionNode.nodeId : CollectionNode → Nat
  | .mk nid _ _ _ _ _ _ => nid

def CollectionNode.gen : CollectionNode → Nat
  | .mk _ gn _ _ _ _ _ => gn

def CollectionNode.ctype : CollectionNode → Nat
  | .mk _ _ t _ _ _ _ => t

def CollectionNode.usagePage : CollectionNode → Nat
  | .mk _ _ _ up _ _ _ => up

def CollectionNode.usage : CollectionNode → Nat
  | .mk _ _ _ _ u _ _ => u

def CollectionNode.fields : CollectionNode → List ReportField
  | .mk _ _ _ _ _ fs _ => fs

def CollectionNode.children : CollectionNode → CollectionForest
  | .mk _ _ _ _ _ _ cs => cs

/-- The `children.emplace_back(...)` operation on the child vector. -/
def forestAppend : CollectionForest → CollectionNode → CollectionForest
  | .nil, n => .cons n .nil
  | .cons c cs, n => .cons c (forestAppend cs n)

/-- One open collection on the parser's collection stack: the data of the
node being built (fields and already-closed children accumulate in
order).  `nodeId` is the node's stable identity, `gen` the current
allocation of its `fields` vector and `cap` that vector's current
capacity: a default-constructed `std::vector` holds no buffer
(capacity 0), and `emplace_back` reallocates exactly when the size has
reached the capacity, invalidating every pointer into the old buffer. -/
structure OpenColl where
  nodeId : Nat := 0
  gen : Nat := 0
  cap : Nat := 0
  ctype : Nat := 0
  usage_page : Nat := 0
  usage : Nat := 0
  fields : List ReportField := []
  children : CollectionForest := .nil

/-- Close an open collection into a finished node. -/
def closeNode (oc : OpenColl) : CollectionNode :=
  .mk oc.nodeId oc.gen oc.ctype oc.usage_page oc.usage oc.fields oc.children

/-! ## The report-ID index (`std::unordered_map<uint8_t,
std::vector<const report_field*>>`)

The C++ index stores raw pointers `const report_field* pf =
&current->fields.back()` into a collection's `std::vector<report_field>`
member.  A pointer into a `std::vector` is the pair of the vector's
current data allocation and an element offset; a later `emplace_back`
that reallocates the vector leaves such a pointer dangling.  A stored
pointer is therefore modelled as the owning node's identity, the
allocation generation of the node's fields vector at the moment the
pointer was taken, and the element index. -/

/-- A `const report_field*` into a collection node's fields vector:
valid only while `gen` is still that vector's allocation. -/
structure FieldPtr where
  node : Nat
  gen : Nat
  idx : Nat
deriving DecidableEq

/-- The index as an association list; `index[k].push_back(v)` appends to
the entry of key `k`, creating it at need. -/
def updateIndex {α : Type} (idx : List (Nat × List α)) (rid : Nat) (v : α) :
    List (Nat × List α) :=
  match idx with
  | [] => [(rid, [v])]
  | (k, vs) :: rest =>
    if k = rid then (k, vs ++ [v]) :: rest else (k, vs) :: updateIndex rest rid v

/-- The lookup `index_by_report_id_.find(k)`: the stored sequence, or empty when the
key is absent. -/
def lookupIndex {α : Type} : List (Nat × List α) → Nat → List α
  | [], _ => []
  | (k, vs) :: rest, q => if k = q then vs else lookupIndex rest q

/-! ## The parser (report_descriptor_tree::parse) -/

/-- The full parser state: the collection stack (top first; the bottom of
`stackTop :: stackRest` is the synthetic root), the global state and its
push/pop stack, the local state, the report-ID index of stored field
pointers, and the fields in emission order (`emitted` is a ghost record
of the order and values of the `fields.emplace_back` events; the index
itself stores pointers, exactly as the C++ does).  `nextId` supplies
fresh node identities; the synthetic root has identity 0. -/
structure ParseState where
  stackTop : OpenColl := {}
  stackRest : List OpenColl := []
  g : GlobalState := {}
  gstack : List GlobalState := []
  l : LocalState := {}
  index : List (Nat × List FieldPtr) := []
  emitted : List ReportField := []
  nextId : Nat := 1

/-- The initial parser state: only the synthetic root is open. -/
def initState : ParseState := {}

/-- The Main-item dispatch (case 0 of the switch): Collection opens a
child (type from the data byte, usage page from the global state, usage
from the last local usage), End Collection closes the top collection
unless only the root is open, Input/Output/Feature append a materialized
field to the open collection's fields vector — reallocating it when the
size has reached the capacity (fresh allocation, geometric growth from
an empty buffer, as every mainstream `std::vector` does) — and push the
address of the new back element into the index, any other tag is
ignored; every case clears the local state. -/
def stepMain (efuel : Nat) (s : ParseState) (it : Item) : Option ParseState :=
  if it.tag = 10 then
    let node : OpenColl :=
      { nodeId := s.nextId, ctype := it.data % 256, usage_page := s.g.usage_page,
        usage := (s.l.usages.getLast?).getD 0 }
    some { s with stackTop := node, stackRest := s.stackTop :: s.stackRest, l := {},
                  nextId := s.nextId + 1 }
  else if it.tag = 12 then
    match s.stackRest with
    | parent :: rest =>
      some { s with
        stackTop := { parent with children := forestAppend parent.children (closeNode s.stackTop) },
        stackRest := rest, l := {} }
    | [] => some { s with l := {} }
  else if it.tag = 8 ∨ it.tag = 9 ∨ it.tag = 11 then
    match mkField efuel s.g s.l it.tag it.data with
    | none => none
    | some f =>
      let realloc := s.stackTop.fields.length = s.stackTop.cap
      let gen' := if realloc then s.stackTop.gen + 1 else s.stackTop.gen
      let cap' := if realloc then (if s.stackTop.cap = 0 then 1 else 2 * s.stackTop.cap)
                  else s.stackTop.cap
      let pf : FieldPtr :=
        { node := s.stackTop.nodeId, gen := gen', idx := s.stackTop.fields.length }
      let top' : OpenColl :=
        { s.stackTop with fields := s.stackTop.fields ++ [f], gen := gen', cap := cap' }
      some { s with
        stackTop := top',
        index := updateIndex s.index f.report_id pf,
        emitted := s.emitted ++ [f], l := {} }
  else some { s with l := {} }

/-- Dispatch of one item by its type (the outer switch of the parse
loop). -/
def parseStep (efuel : Nat) (s : ParseState) (it : Item) : Option ParseState :=
  if it.type = 0 then stepMain efuel s it
  else if it.type = 1 then
    let pr := applyGlobal s.g s.gstack it
    some { s with g := pr.1, gstack := pr.2 }
  else if it.type = 2 then some { s with l := applyLocal s.l it }
  else some s

/-- The parse loop `while (p < end)`; `steps` bounds the number of
iterations and `steps = length` always suffices because `parseItem`
consumes at least one byte. -/
def parseSteps : Nat → List Nat → ParseState → Nat → Option ParseState
  | _, [], s, _ => some s
  | 0, _ :: _, _, _ => none
  | steps + 1, b :: tl, s, efuel =>
    let pr := parseItem (b :: tl)
    match parseStep efuel s pr.1 with
    | none => none
    | some s' => parseSteps steps pr.2 s' efuel

/-- Close all collections left open at end of input (in the C++ code the
nodes are already linked into the tree when opened; closing the zipper
stack bottom-up produces the same tree). -/
def closeAll : OpenColl → List OpenColl → CollectionNode
  | top, [] => closeNode top
  | top, parent :: rest =>
    closeAll { parent with children := forestAppend parent.children (closeNode top) } rest

/-- The `report_descriptor_tree` result: the synthetic root, the report-ID index
of stored field pointers, the fields in emission order (ghost), and the
view of the source bytes. -/
structure DescTree where
  root : CollectionNode
  index : List (Nat × List FieldPtr)
  emitted : List ReportField
  source : List Nat
deriving DecidableEq

/-- The entry point `report_descriptor_tree::parse`.  `efuel` is the iteration bound for
the usage-range expansion loops; `none` means some expansion loop did not
finish within `efuel` iterations. -/
def parse (efuel : Nat) (bs : List Nat) : Option DescTree :=
  match parseSteps bs.length bs initState efuel with
  | none => none
  | some s =>
    some { root := closeAll s.stackTop s.stackRest, index := s.index,
           emitted := s.emitted, source := bs }

/-- The query `report_descriptor_tree::find_by_report_id`: it returns a
copy of the stored pointer vector (the pointers themselves, whether or
not they still point into a live allocation). -/
def find_by_report_id (t : DescTree) (k : Nat) : List FieldPtr :=
  lookupIndex t.index k

mutual
/-- Locate the node with a given identity and return the final
allocation generation and contents of its fields vector. -/
def findNode : CollectionNode → Nat → Option (Nat × List ReportField)
  | .mk nid gn _ _ _ fs cs, q =>
    if nid = q then some (gn, fs) else findNodeF cs q
/-- The forest version of `findNode`. -/
def findNodeF : CollectionForest → Nat → Option (Nat × List ReportField)
  | .nil, _ => none
  | .cons c cs, q =>
    match findNode c q with
    | some r => some r
    | none => findNodeF cs q
end

/-- Dereference a stored field pointer against the finished tree: the
read is defined only if the pointer's recorded allocation is still the
node's fields vector's final allocation (otherwise the buffer it points
into has been freed by a reallocation and the C++ read is
use-after-free, modelled as `none`). -/
def derefFieldPtr (t : DescTree) (p : FieldPtr) : Option ReportField :=
  match findNode t.root p.node with
  | none => none
  | some pr => if p.gen = pr.1 then pr.2[p.idx]? else none

/-! ## Depth-first field order of the finished tree -/

mutual
/-- All fields of a tree in depth-first, fields-before-children order. -/
def dfsFields : CollectionNode → List ReportField
  | .mk _ _ _ _ _ fs cs => fs ++ dfsForest cs
/-- All fields of a forest in depth-first order. -/
def dfsForest : CollectionForest → List ReportField
  | .nil => []
  | .cons c cs => dfsFields c ++ dfsForest cs
end

/-- The fields recorded in one open collection (own fields, then the
fields of its already-closed children). -/
def openFields (oc : OpenColl) : List ReportField :=
  oc.fields ++ dfsForest oc.children

/-- The fields recorded in a list of open collections. -/
def stackFieldsAux : List OpenColl → List ReportField
  | [] => []
  | oc :: rest => openFields oc ++ stackFieldsAux rest

/-! ## String helpers shared by the renderers -/

/-- Uppercase hex rendering of a natural number (the C++ `{:X}` format). -/
def hexU (n : Nat) : String :=
  String.mk ((Nat.toDigits 16 n).map Char.toUpper)

/-- Uppercase hex left-padded with zeros to width `w` (the C++ `{:0wX}`
formats; wider values keep all their digits). -/
def hexW (w : Nat) (n : Nat) : String :=
  String.mk (List.replicate (w - (hexU n).length) '0') ++ hexU n

/-- Join strings with a bare comma (the `add` helper of
`input_output_feature_flags_text` and the usage list of
`dump_collection` separate entries exactly this way). -/
def commaJoin : List String → String
  | [] => ""
  | [x] => x
  | x :: xs => x ++ "," ++ commaJoin xs

/-- Join strings with a comma and space (`append_item_bytes`). -/
def commaSpaceJoin : List String → String
  | [] => ""
  | [x] => x
  | x :: xs => x ++ ", " ++ commaSpaceJoin xs

/-! ## Name tables (hid_report_desc.cpp) -/

/-- The `collection_type_name` table. -/
def collectionTypeName (t : Nat) : String :=
  if t = 0 then "Physical"
  else if t = 1 then "Application"
  else if t = 2 then "Logical"
  else if t = 3 then "Report"
  else if t = 4 then "Named Array"
  else if t = 5 then "Usage Switch"
  else if t = 6 then "Usage Modifier"
  else "Reserved"

/-- The `field_kind_name` table. -/
def fieldKindName : FieldKind → String
  | .input => "Input"
  | .output => "Output"
  | .feature => "Feature"

/-- The `usage_page_name` table. -/
def usagePageName (page : Nat) : String :=
  if page = 0x01 then "Generic Desktop Ctrls"
  else if page = 0x07 then "Kbrd/Keypad"
  else if page = 0x08 then "LEDs"
  else if page = 0x09 then "Button"
  else if page = 0x0C then "Consumer"
  else if page = 0x0D then "Digitizer"
  else if page = 0x0E then "Reserved 0x0E"
  else if page = 0x0A then "Ordinal"
  else if 0xFF00 ≤ page ∧ page ≤ 0xFFFF then "Vendor Defined 0x" ++ hexW 4 page
  else "0x" ++ hexW 2 page

/-- The `usage_name` table. -/
def usageName (page : Nat) (usage : Nat) : String :=
  if page = 0x01 then
    if usage = 0x01 then "Pointer"
    else if usage = 0x02 then "Mouse"
    else if usage = 0x30 then "X"
    else if usage = 0x31 then "Y"
    else if usage = 0x38 then "Wheel"
    else "0x" ++ hexU usage
  else if page = 0x0D then
    if usage = 0x20 then "Stylus" else "0x" ++ hexU usage
  else if page = 0x0E then
    if usage = 0x01 then "Simple Haptic Controller"
    else if usage = 0x24 then "Repeat Count"
    else if usage = 0x23 then "Intensity"
    else if usage = 0x20 then "Auto Trigger"
    else if usage = 0x21 then "Manual Trigger"
    else if usage = 0x28 then "Waveform Cutoff Time"
    else if usage = 0x25 then "Retrigger Period"
    else if usage = 0x22 then "Auto Trigger Associated Control"
    else if usage = 0x11 then "Duration List"
    else if usage = 0x10 then "Waveform List"
    else "0x" ++ hexU usage
  else if page = 0x0C then
    if usage = 0xE0 then "Volume" else "0x" ++ hexU usage
  else "0x" ++ hexU usage

/-- The `input_output_feature_flags_text` helper: one token per flag bit, joined by
commas; the bit-7 label depends on the field kind. -/
def flagsText (raw : Nat) (kind : FieldKind) : String :=
  commaJoin
    [ if raw.testBit 0 then "Const" else "Data",
      if raw.testBit 1 then "Var" else "Array",
      if raw.testBit 2 then "Rel" else "Abs",
      if raw.testBit 3 then "Wrap" else "No Wrap",
      if raw.testBit 4 then "Non-linear" else "Linear",
      if raw.testBit 5 then "No Preferred State" else "Preferred State",
      if raw.testBit 6 then "Null Position" else "No Null Position",
      if kind = FieldKind.input then
        (if raw.testBit 7 then "Buffered Bytes" else "Bitfield")
      else
        (if raw.testBit 7 then "Non-volatile" else "Volatile") ]

/-! ## The tree dumper (`dump_collection`, defined but never invoked by
`to_string`) -/

/-- The comma-separated hex usage list of a field line. -/
def usagesHexList : List Nat → String
  | [] => ""
  | [u] => "0x" ++ hexU u
  | u :: us => "0x" ++ hexU u ++ "," ++ usagesHexList us

/-- The text of one field line of `dump_collection` (without indent or
newline). -/
def fieldText (f : ReportField) : String :=
  fieldKindName f.kind ++ "(ReportID=" ++ toString f.report_id ++
    ", SizeBits=" ++ toString f.report_size_bits ++
    ", Count=" ++ toString f.report_count ++
    ", Flags=0x" ++ hexW 2 f.flags ++ ")" ++
    (if f.usages ≠ [] then " Usages=[" ++ usagesHexList f.usages ++ "]" else "")

/-- The field lines of `dump_collection`, each at `ind ++ "  "`. -/
def dumpFields (ind : String) : List ReportField → String
  | [] => ""
  | f :: rest => ind ++ "  " ++ fieldText f ++ "\n" ++ dumpFields ind rest

mutual
/-- The `dump_collection` walk: the collection's own line (with UsagePage/Usage
suffix when either is nonzero), its field lines, then the children at
`indent + 1` (two spaces per level). -/
def dumpNode : CollectionNode → Nat → String
  | .mk _ _ t up u fs cs, indent =>
    let ind := String.mk (List.replicate (indent * 2) ' ')
    ind ++ "Collection(" ++ collectionTypeName t ++ ")" ++
      (if up ≠ 0 ∨ u ≠ 0 then
        " UsagePage=0x" ++ hexW 4 up ++ (if u ≠ 0 then " Usage=0x" ++ hexU u else "")
      else "") ++ "\n" ++
      dumpFields ind fs ++ dumpForest cs (indent + 1)
/-- The `dump_collection` walk mapped over a child vector. -/
def dumpForest : CollectionForest → Nat → String
  | .nil, _ => ""
  | .cons c cs, indent => dumpNode c indent ++ dumpForest cs indent
end

/-! ## The annotated byte renderer (`report_descriptor_tree::to_string`) -/

/-- The `append_item_bytes` column: the item's raw bytes as `0xNN, 0xNN, …` followed
by the pad computed from `len * 6` against column 24. -/
def itemBytesText (bytes : List Nat) : String :=
  let body := commaSpaceJoin (bytes.map (fun b => "0x" ++ hexW 2 (b % 256)))
  let pads := if bytes.length * 6 ≥ 24 then 1 else 24 - bytes.length * 6
  body ++ String.mk (List.replicate pads ' ')

/-- The item-description dispatch of `to_string`: the description text,
the updated renderer-local usage page, and the updated depth. -/
def renderItem (it : Item) (up : Nat) (depth : Nat) : String × Nat × Nat :=
  if it.type = 0 then
    if it.tag = 10 then ("Collection (" ++ collectionTypeName (it.data % 256) ++ ")", up, depth + 1)
    else if it.tag = 12 then ("End Collection", up, if depth > 0 then depth - 1 else depth)
    else if it.tag = 8 then ("Input (" ++ flagsText (it.data % 256) .input ++ ")", up, depth)
    else if it.tag = 9 then ("Output (" ++ flagsText (it.data % 256) .output ++ ")", up, depth)
    else if it.tag = 11 then ("Feature (" ++ flagsText (it.data % 256) .feature ++ ")", up, depth)
    else ("Main (tag=0x" ++ hexU it.tag ++ ")", up, depth)
  else if it.type = 1 then
    if it.tag = 0 then
      ("Usage Page (" ++ usagePageName (it.data % 65536) ++ ")", it.data % 65536, depth)
    else if it.tag = 1 then ("Logical Minimum (" ++ toString (signExtend it.data it.size) ++ ")", up, depth)
    else if it.tag = 2 then ("Logical Maximum (" ++ toString (signExtend it.data it.size) ++ ")", up, depth)
    else if it.tag = 3 then ("Physical Minimum (" ++ toString (signExtend it.data it.size) ++ ")", up, depth)
    else if it.tag = 4 then ("Physical Maximum (" ++ toString (signExtend it.data it.size) ++ ")", up, depth)
    else if it.tag = 5 then ("Unit Exponent", up, depth)
    else if it.tag = 6 then ("Unit (System: SI Linear, Time: Seconds)", up, depth)
    else if it.tag = 7 then ("Report Size (" ++ toString it.data ++ ")", up, depth)
    else if it.tag = 8 then ("Report ID (" ++ toString (it.data % 256) ++ ")", up, depth)
    else if it.tag = 9 then ("Report Count (" ++ toString it.data ++ ")", up, depth)
    else ("Global (tag=0x" ++ hexU it.tag ++ ")", up, depth)
  else if it.type = 2 then
    if it.tag = 0 then ("Usage (" ++ usageName up it.data ++ ")", up, depth)
    else if it.tag = 1 then ("Usage Minimum (0x" ++ hexW 2 it.data ++ ")", up, depth)
    else if it.tag = 2 then ("Usage Maximum (0x" ++ hexW 2 it.data ++ ")", up, depth)
    else ("Local (tag=0x" ++ hexU it.tag ++ ")", up, depth)
  else ("Reserved", up, depth)

/-- The re-tokenizing loop of `to_string`: one line per item (raw bytes,
`// `, indent at the current depth, description); `steps = length`
always suffices. -/
def renderLoop : Nat → List Nat → Nat → Nat → String
  | _, [], _, _ => ""
  | 0, _ :: _, _, _ => ""
  | steps + 1, b :: tl, up, depth =>
    let pr := parseItem (b :: tl)
    let consumed := (b :: tl).take ((b :: tl).length - pr.2.length)
    let dud := renderItem pr.1 up depth
    itemBytesText consumed ++ "// " ++ String.mk (List.replicate (depth * 2) ' ') ++
      dud.1 ++ "\n" ++ renderLoop steps pr.2 dud.2.1 dud.2.2

/-- The renderer `report_descriptor_tree::to_string`: the annotated rendering of the
stored source bytes, terminated by a blank line and the byte count. -/
def toStr (t : DescTree) : String :=
  renderLoop t.source.length t.source 0 0 ++ "\n// " ++ toString t.source.length ++ " bytes\n"

/-! ## Device transport (src/unnamed/part_002, `device::feature_get`) -/

/-- The error kinds surfaced by the transport: `std::invalid_argument`,
`std::system_error` (OS failure), `std::runtime_error` on a short read. -/
inductive DevError where
  | invalidArgument (msg : String)
  | ioFailure (msg : String)
  | protocolShort (msg : String)
deriving DecidableEq

/-- The call `device::feature_get` on an opened device.  The OS `ioctl` is an
oracle `os` mapping the buffer to its return value and the filled buffer;
an empty buffer is rejected before the oracle is consulted, a negative
return is an OS failure, a return different from the buffer size is a
short read, and otherwise the call succeeds with the OS-filled buffer. -/
def feature_get (buf : List Nat) (os : List Nat → Int × List Nat) :
    Except DevError (List Nat) :=
  if buf.length = 0 then .error (.invalidArgument "Data buffer is empty")
  else
    let pr := os buf
    if pr.1 < 0 then .error (.ioFailure "Failed to get feature report")
    else if pr.1.toNat ≠ buf.length then .error (.protocolShort "Incomplete feature report read")
    else .ok pr.2

/-! ## Definitions modelled from the spec's words (for refinement claims) -/

/-- Modelled from the spec: the comma-separated join used by the §4.4
tree-dump description. -/
def specCommaJoin : List String → String
  | [] => ""
  | [x] => x
  | x :: xs => x ++ "," ++ specCommaJoin xs

/-- Modelled from the spec: two spaces of indent per level (§4.4). -/
def specIndent (d : Nat) : String :=
  String.mk (List.replicate (2 * d) ' ')

/-- Modelled from the spec: the comma-separated hex usages of a field
line (§4.4). -/
def specHexUsages (us : List Nat) : String :=
  specCommaJoin (us.map (fun u => "0x" ++ hexU u))

/-- Modelled from the spec: one line per Field with kind, Report ID,
size-in-bits, count, flags byte, and comma-separated hex usages (§4.4),
indented two spaces past its collection. -/
def specFieldLine (d : Nat) (f : ReportField) : String :=
  specIndent d ++ "  " ++ fieldKindName f.kind ++ "(ReportID=" ++ toString f.report_id ++
    ", SizeBits=" ++ toString f.report_size_bits ++ ", Count=" ++ toString f.report_count ++
    ", Flags=0x" ++ hexW 2 f.flags ++ ")" ++
    (if f.usages = [] then "" else " Usages=[" ++ specHexUsages f.usages ++ "]") ++ "\n"

/-- Concatenation of a list of lines. -/
def specJoin : List String → String
  | [] => ""
  | x :: xs => x ++ specJoin xs

mutual
/-- Modelled from the spec (§4.4): a depth-first walk emitting one line
per Collection opening (`Collection(<type-name>)` plus UsagePage/Usage
when either is nonzero), one line per Field, then the children with the
indent incremented by one (two spaces per level). -/
def specDumpNode : CollectionNode → Nat → String
  | .mk _ _ t up u fs cs, d =>
    specIndent d ++ "Collection(" ++ collectionTypeName t ++ ")" ++
      (if up ≠ 0 ∨ u ≠ 0 then
        " UsagePage=0x" ++ hexW 4 up ++ (if u ≠ 0 then " Usage=0x" ++ hexU u else "")
      else "") ++ "\n" ++
      specJoin (fs.map (specFieldLine d)) ++ specDumpForest cs (d + 1)
/-- Modelled from the spec (§4.4): the children in order. -/
def specDumpForest : CollectionForest → Nat → String
  | .nil, _ => ""
  | .cons c cs, d => specDumpNode c d ++ specDumpForest cs d
end

/-- Modelled from the spec (§4.4): the whole-tree dump, with the
synthetic root unlabeled and its children at indent 0. -/
def specTreeDump (t : DescTree) : String :=
  specDumpForest t.root.children 0

/-- The evaluator-only state for the C5 reference trace. -/
structure EvalState where
  g : GlobalState := {}
  gstack : List GlobalState := []
  l : LocalState := {}
deriving DecidableEq

/-- Modelled from the spec (state locality, §8): how one item transforms
the evaluator state, together with the field snapshot a Main
Input/Output/Feature item emits from the global state immediately before
the item. -/
def specStep (efuel : Nat) (es : EvalState) (it : Item) :
    Option (EvalState × List ReportField) :=
  if it.type = 0 then
    if it.tag = 8 ∨ it.tag = 9 ∨ it.tag = 11 then
      match mkField efuel es.g es.l it.tag it.data with
      | none => none
      | some f => some ({ es with l := {} }, [f])
    else some ({ es with l := {} }, [])
  else if it.type = 1 then
    let pr := applyGlobal es.g es.gstack it
    some ({ es with g := pr.1, gstack := pr.2 }, [])
  else if it.type = 2 then some ({ es with l := applyLocal es.l it }, [])
  else some (es, [])

/-- Modelled from the spec: the reference trace over a byte stream — the
fields emitted at Main items, each built from the evaluator state
immediately before its item. -/
def specFieldsLoop : Nat → List Nat → EvalState → Nat → Option (EvalState × List ReportField)
  | _, [], es, _ => some (es, [])
  | 0, _ :: _, _, _ => none
  | steps + 1, b :: tl, es, efuel =>
    let pr := parseItem (b :: tl)
    match specStep efuel es pr.1 with
    | none => none
    | some pr2 =>
      match specFieldsLoop steps pr.2 pr2.1 efuel with
      | none => none
      | some pr3 => some (pr3.1, pr2.2 ++ pr3.2)

/-! ## Concrete inputs used by counterexamples and witnesses -/

/-- The spec's §8 minimal mouse descriptor: one Application collection
containing one Physical collection with two Input fields — the second
`emplace_back` into the Physical collection's fields vector reallocates
it. -/
def bsMouse : List Nat :=
  [0x05, 0x01, 0x09, 0x02, 0xA1, 0x01, 0x09, 0x01, 0xA1, 0x00, 0x05, 0x09,
   0x19, 0x01, 0x29, 0x03, 0x15, 0x00, 0x25, 0x01, 0x95, 0x03, 0x75, 0x01,
   0x81, 0x02, 0x95, 0x01, 0x75, 0x05, 0x81, 0x03, 0xC0, 0xC0]

/-- The first Input field of the minimal mouse (usage range 1..3,
three one-bit variable fields), as spec §8 scenario 2 prescribes. -/
def mouseField1 : ReportField :=
  { kind := .input, report_id := 0, usage_page := 9, usages := [1, 2, 3],
    report_size_bits := 1, report_count := 3, logical_min := 0, logical_max := 1, flags := 2 }

/-- The second Input field of the minimal mouse (five constant padding
bits), as spec §8 scenario 2 prescribes. -/
def mouseField2 : ReportField :=
  { kind := .input, report_id := 0, usage_page := 9, usages := [],
    report_size_bits := 5, report_count := 1, logical_min := 0, logical_max := 1, flags := 3 }

/-- The tree the parser builds from `bsMouse`: the synthetic root (node
0), the Application collection (node 1), and the Physical collection
(node 2) holding both fields — its fields vector ends at allocation
generation 2 because the second `emplace_back` reallocated it, while the
index's first stored pointer still records generation 1. -/
def tMouse : DescTree :=
  { root := .mk 0 0 0 0 0 []
      (.cons (.mk 1 0 1 1 2 []
        (.cons (.mk 2 2 0 1 1 [mouseField1, mouseField2] .nil) .nil)) .nil),
    index := [(0, [⟨2, 1, 0⟩, ⟨2, 2, 1⟩])],
    emitted := [mouseField1, mouseField2],
    source := bsMouse }

/-- Usage Maximum 0xFFFFFFFF followed by an Input item: the usage-range
expansion loop never terminates on this input. -/
def bsLoop : List Nat := [0x2B, 0xFF, 0xFF, 0xFF, 0xFF, 0x80]

/-- The long-item example of spec §8: a long item with data size 3,
then a Usage Page item. -/
def bsC6 : List Nat := [0xFE, 0x03, 0xAA, 0x11, 0x22, 0x33, 0x05, 0x01]

/-- Usage Page 1, then an Input item with flags 0x02. -/
def bsC5 : List Nat := [0x05, 0x01, 0x81, 0x02]

/-- The tree parsed from `bsC5`. -/
def tC5 : DescTree := (parse 0 bsC5).get (by decide)

/-- The empty descriptor parses to the bare synthetic root. -/
def tEmpty : DescTree := (parse 0 []).get (by decide)

/-- The push item and the pop item (Global tags 0x0A and 0x0B). -/
def pushItem : Item := { size := 0, type := 1, tag := 10, data := 0 }

/-- The pop item. -/
def popItem : Item := { size := 0, type := 1, tag := 11, data := 0 }

/-- Fold the global-state evaluator over a list of items. -/
def runGlobals (g : GlobalState) (gstack : List GlobalState) (items : List Item) :
    GlobalState × List GlobalState :=
  items.foldl (fun pr it => applyGlobal pr.1 pr.2 it) (g, gstack)

/-! ## Basic facts about the tokenizer -/

/-- Reading data bytes returns a suffix no longer than the input. -/
theorem readLE_snd_length : ∀ (n : Nat) (bs : List Nat), ((readLE n bs).2).length ≤ bs.length
  | 0, _ => le_refl _
  | _ + 1, [] => le_refl _
  | n + 1, b :: bs => by
    have h := readLE_snd_length n bs
    simp only [readLE]
    exact le_trans h (Nat.le_succ _)

/-- The tokenizer always consumes at least the prefix byte. -/
theorem parseItem_snd_length (b : Nat) (bs : List Nat) :
    ((parseItem (b :: bs)).2).length ≤ bs.length := by
  simp only [parseItem]
  split
  · split
    · simp only [List.length_drop, List.length_cons]
      omega
    · simp
  · simpa using readLE_snd_length _ bs

/-- Any step bound at least the stream length gives the same parse
result: the exhaustion branch of `parseSteps` is unreachable, so the
model agrees with the C++ `while (p < end)` loop. -/
theorem parseSteps_ext : ∀ (n m : Nat) (bs : List Nat) (s : ParseState) (efuel : Nat),
    bs.length ≤ n → bs.length ≤ m →
    parseSteps n bs s efuel = parseSteps m bs s efuel
  | _, _, [], _, _, _, _ => by simp [parseSteps]
  | 0, _, _ :: _, _, _, hn, _ => by simp at hn
  | _ + 1, 0, _ :: _, _, _, _, hm => by simp at hm
  | n + 1, m + 1, b :: tl, s, efuel, hn, hm => by
    simp only [parseSteps]
    cases h : parseStep efuel s (parseItem (b :: tl)).1 with
    | none => rfl
    | some s' =>
      exact parseSteps_ext n m ((parseItem (b :: tl)).2) s' efuel
        (le_trans (parseItem_snd_length b tl) (by simpa using hn))
        (le_trans (parseItem_snd_length b tl) (by simpa using hm))

/-- The renderer loop likewise needs no more steps than the length. -/
theorem renderLoop_ext : ∀ (n m : Nat) (bs : List Nat) (up depth : Nat),
    bs.length ≤ n → bs.length ≤ m →
    renderLoop n bs up depth = renderLoop m bs up depth
  | _, _, [], _, _, _, _ => by simp [renderLoop]
  | 0, _, _ :: _, _, _, hn, _ => by simp at hn
  | _ + 1, 0, _ :: _, _, _, _, hm => by simp at hm
  | n + 1, m + 1, b :: tl, up, depth, hn, hm => by
    simp only [renderLoop]
    have h := renderLoop_ext n m ((parseItem (b :: tl)).2)
      (renderItem (parseItem (b :: tl)).1 up depth).2.1
      (renderItem (parseItem (b :: tl)).1 up depth).2.2
      (le_trans (parseItem_snd_length b tl) (by simpa using hn))
      (le_trans (parseItem_snd_length b tl) (by simpa using hm))
    rw [h]

/-! ## The usage-range expansion loop -/

/-- When the `uint32_t` upper bound is 0xFFFFFFFF the guard `u <= hi` is
satisfied by every value of the wrapping counter, so no iteration bound
makes the loop finish: the C++ loop runs forever. -/
theorem expandLoop_eq_none (hi : Nat) (hhi : 4294967295 ≤ hi) :
    ∀ (fuel u : Nat) (acc : List Nat), u < 4294967296 → expandLoop fuel u hi acc = none
  | 0, _, _, _ => rfl
  | fuel + 1, u, acc, hu => by
    have hle : u ≤ hi := by omega
    simp only [expandLoop, if_pos hle]
    exact expandLoop_eq_none hi hhi fuel _ _ (Nat.mod_lt _ (by norm_num))

/-- When the loop does finish, it has appended exactly the ascending
range from the low bound to the high bound (empty when the low bound
exceeds the high bound). -/
theorem expandLoop_eq_some (hi : Nat) :
    ∀ (fuel u : Nat) (acc out : List Nat), u < 4294967296 →
      expandLoop fuel u hi acc = some out →
      out = acc ++ List.range' u (hi + 1 - u)
  | 0, u, acc, out, _, h => by simp [expandLoop] at h
  | fuel + 1, u, acc, out, hu, h => by
    by_cases hle : u ≤ hi
    · rw [expandLoop, if_pos hle] at h
      by_cases hw : u + 1 < 4294967296
      · rw [Nat.mod_eq_of_lt hw] at h
        have h2 := expandLoop_eq_some hi fuel (u + 1) (acc ++ [u]) out hw h
        have hr : List.range' u (hi + 1 - u) = u :: List.range' (u + 1) (hi - u) := by
          have : hi + 1 - u = (hi - u) + 1 := by omega
          rw [this, List.range'_succ]
        have : hi + 1 - (u + 1) = hi - u := by omega
        rw [this] at h2
        simp [h2, hr]
      · have hu' : u = 4294967295 := by omega
        have hhi : 4294967295 ≤ hi := by omega
        have : (u + 1) % 4294967296 = 0 := by omega
        rw [this] at h
        rw [expandLoop_eq_none hi hhi fuel 0 (acc ++ [u]) (by norm_num)] at h
        exact absurd h (by simp)
    · rw [expandLoop, if_neg hle] at h
      injection h with h
      have h0 : hi + 1 - u = 0 := by omega
      simp [h0, ← h]

/-! ## The report-ID index -/

/-- Pushing a value into the index appends it to its key's sequence and
leaves every other key unchanged. -/
theorem lookupIndex_updateIndex {α : Type} (idx : List (Nat × List α)) (rid : Nat)
    (f : α) (k : Nat) :
    lookupIndex (updateIndex idx rid f) k =
      if k = rid then lookupIndex idx k ++ [f] else lookupIndex idx k := by
  induction idx with
  | nil =>
    by_cases h : k = rid
    · subst h
      simp [updateIndex, lookupIndex]
    · simp [updateIndex, lookupIndex, h, Ne.symm h]
  | cons hd tl ih =>
    obtain ⟨k0, fs0⟩ := hd
    by_cases h0 : k0 = rid
    · subst h0
      by_cases hk : k0 = k
      · subst hk
        simp [updateIndex, lookupIndex]
      · simp [updateIndex, lookupIndex, hk, Ne.symm hk]
    · by_cases hk : k0 = k
      · subst hk
        simp [updateIndex, lookupIndex, h0, Ne.symm h0]
      · simp [updateIndex, lookupIndex, h0, hk, ih]

/-! ## Correspondence of the parser with the reference evaluator trace -/

/-- One parser step agrees with the reference evaluator: the evaluator
components evolve identically and the fields appended to `emitted` are
exactly the snapshots the reference trace emits. -/
theorem parseStep_spec (efuel : Nat) (s : ParseState) (it : Item) (s1 : ParseState)
    (h : parseStep efuel s it = some s1) :
    ∃ fs, specStep efuel ⟨s.g, s.gstack, s.l⟩ it = some (⟨s1.g, s1.gstack, s1.l⟩, fs) ∧
      s1.emitted = s.emitted ++ fs := by
  by_cases hty0 : it.type = 0
  · by_cases hf : it.tag = 8 ∨ it.tag = 9 ∨ it.tag = 11
    · have htag10 : ¬it.tag = 10 := by rcases hf with h | h | h <;> omega
      have htag12 : ¬it.tag = 12 := by rcases hf with h | h | h <;> omega
      simp only [parseStep, stepMain, specStep, hty0, hf, htag10, htag12,
        if_true, if_false, if_pos, if_neg, not_false_iff] at h ⊢
      cases hmk : mkField efuel s.g s.l it.tag it.data with
      | none => rw [hmk] at h; exact absurd h (by simp)
      | some f =>
        rw [hmk] at h
        obtain rfl := Option.some_inj.mp h
        exact ⟨[f], rfl, rfl⟩
    · by_cases htag10 : it.tag = 10
      · simp only [parseStep, stepMain, specStep, hty0, hf, htag10] at h ⊢
        obtain rfl := Option.some_inj.mp h
        exact ⟨[], by simp, by simp⟩
      · by_cases htag12 : it.tag = 12
        · simp only [parseStep, stepMain, specStep, hty0, hf, htag10, htag12,
            if_true, if_false, not_false_iff] at h ⊢
          cases hr : s.stackRest with
          | nil =>
            rw [hr] at h
            obtain rfl := Option.some_inj.mp h
            exact ⟨[], by simp, by simp⟩
          | cons parent rest =>
            rw [hr] at h
            obtain rfl := Option.some_inj.mp h
            exact ⟨[], by simp, by simp⟩
        · simp only [parseStep, stepMain, specStep, hty0, hf, htag10, htag12] at h ⊢
          obtain rfl := Option.some_inj.mp h
          exact ⟨[], by simp, by simp⟩
  · by_cases hty1 : it.type = 1
    · simp only [parseStep, specStep, hty0, hty1] at h ⊢
      obtain rfl := Option.some_inj.mp h
      exact ⟨[], by simp, by simp⟩
    · by_cases hty2 : it.type = 2
      · simp only [parseStep, specStep, hty0, hty1, hty2] at h ⊢
        obtain rfl := Option.some_inj.mp h
        exact ⟨[], by simp, by simp⟩
      · simp only [parseStep, specStep, hty0, hty1, hty2] at h ⊢
        obtain rfl := Option.some_inj.mp h
        exact ⟨[], by simp, by simp⟩

/-- The whole parse agrees with the reference trace: whenever the parser
finishes, the reference trace finishes with the same evaluator state and
`emitted` has grown by exactly the trace's snapshot fields. -/
theorem parseSteps_spec : ∀ (steps : Nat) (bs : List Nat) (s : ParseState) (efuel : Nat)
    (s' : ParseState), parseSteps steps bs s efuel = some s' →
    ∃ fs, specFieldsLoop steps bs ⟨s.g, s.gstack, s.l⟩ efuel = some (⟨s'.g, s'.gstack, s'.l⟩, fs) ∧
      s'.emitted = s.emitted ++ fs
  | steps, [], s, efuel, s', h => by
    simp only [parseSteps, Option.some_inj] at h
    subst h
    exact ⟨[], by simp [specFieldsLoop], by simp⟩
  | 0, b :: tl, s, efuel, s', h => by simp [parseSteps] at h
  | steps + 1, b :: tl, s, efuel, s', h => by
    simp only [parseSteps] at h
    cases hps : parseStep efuel s (parseItem (b :: tl)).1 with
    | none => rw [hps] at h; simp at h
    | some s1 =>
      rw [hps] at h
      simp only at h
      obtain ⟨fs1, hspec1, hem1⟩ := parseStep_spec efuel s _ s1 hps
      obtain ⟨fs2, hspec2, hem2⟩ := parseSteps_spec steps _ s1 efuel s' h
      refine ⟨fs1 ++ fs2, ?_, ?_⟩
      · simp only [specFieldsLoop, hspec1, hspec2]
      · rw [hem2, hem1, List.append_assoc]

/-! ## The multiset invariant linking the stack to the emission order -/

/-- Appending to a child vector appends its fields in depth-first
order. -/
theorem dfsForest_append : ∀ (cs : CollectionForest) (n : CollectionNode),
    dfsForest (forestAppend cs n) = dfsForest cs ++ dfsFields n
  | .nil, n => by simp [forestAppend, dfsForest]
  | .cons c cs, n => by
    simp [forestAppend, dfsForest, dfsForest_append cs n]

/-- Closing an open collection yields exactly its recorded fields. -/
theorem dfsFields_closeNode (oc : OpenColl) :
    dfsFields (closeNode oc) = openFields oc := by
  cases oc
  simp [closeNode, dfsFields, openFields]

/-- One parser step preserves the multiset equality between the fields
reachable from the collection stack and the emission order. -/
theorem parseStep_ms (efuel : Nat) (s : ParseState) (it : Item) (s1 : ParseState)
    (h : parseStep efuel s it = some s1)
    (hM : ((openFields s.stackTop ++ stackFieldsAux s.stackRest : List ReportField) :
      Multiset ReportField) = (s.emitted : Multiset ReportField)) :
    ((openFields s1.stackTop ++ stackFieldsAux s1.stackRest : List ReportField) :
      Multiset ReportField) = (s1.emitted : Multiset ReportField) := by
  by_cases hty0 : it.type = 0
  · by_cases hf : it.tag = 8 ∨ it.tag = 9 ∨ it.tag = 11
    · have htag10 : ¬it.tag = 10 := by rcases hf with h' | h' | h' <;> omega
      have htag12 : ¬it.tag = 12 := by rcases hf with h' | h' | h' <;> omega
      simp only [parseStep, stepMain, hty0, hf, htag10, htag12,
        if_true, if_false, if_pos, if_neg, not_false_iff] at h
      cases hmk : mkField efuel s.g s.l it.tag it.data with
      | none => rw [hmk] at h; exact absurd h (by simp)
      | some f =>
        rw [hmk] at h
        obtain rfl := Option.some_inj.mp h
        simp only [openFields, ← Multiset.coe_add] at hM ⊢
        rw [← hM]
        abel
    · by_cases htag10 : it.tag = 10
      · simp only [parseStep, stepMain, hty0, hf, htag10] at h
        obtain rfl := Option.some_inj.mp h
        simpa [openFields, stackFieldsAux, dfsForest] using hM
      · by_cases htag12 : it.tag = 12
        · simp only [parseStep, stepMain, hty0, hf, htag10, htag12,
            if_true, if_false, not_false_iff] at h
          cases hr : s.stackRest with
          | nil =>
            rw [hr] at h
            obtain rfl := Option.some_inj.mp h
            simpa [hr] using hM
          | cons parent rest =>
            rw [hr] at h
            obtain rfl := Option.some_inj.mp h
            rw [hr] at hM
            simp only [openFields, stackFieldsAux, dfsForest_append, dfsFields_closeNode] at hM ⊢
            simp only [← Multiset.coe_add] at hM ⊢
            rw [← hM]
            abel
        · simp only [parseStep, stepMain, hty0, hf, htag10, htag12] at h
          obtain rfl := Option.some_inj.mp h
          exact hM
  · by_cases hty1 : it.type = 1
    · simp only [parseStep, hty0, hty1] at h
      obtain rfl := Option.some_inj.mp h
      exact hM
    · by_cases hty2 : it.type = 2
      · simp only [parseStep, hty0, hty1, hty2] at h
        obtain rfl := Option.some_inj.mp h
        exact hM
      · simp only [parseStep, hty0, hty1, hty2] at h
        obtain rfl := Option.some_inj.mp h
        exact hM

/-- The parse loop preserves the multiset invariant. -/
theorem parseSteps_ms : ∀ (steps : Nat) (bs : List Nat) (s : ParseState) (efuel : Nat)
    (s' : ParseState), parseSteps steps bs s efuel = some s' →
    ((openFields s.stackTop ++ stackFieldsAux s.stackRest : List ReportField) :
      Multiset ReportField) = (s.emitted : Multiset ReportField) →
    ((openFields s'.stackTop ++ stackFieldsAux s'.stackRest : List ReportField) :
      Multiset ReportField) = (s'.emitted : Multiset ReportField)
  | steps, [], s, efuel, s', h, hM => by
    simp only [parseSteps, Option.some_inj] at h
    subst h
    exact hM
  | 0, b :: tl, s, efuel, s', h, hM => by simp [parseSteps] at h
  | steps + 1, b :: tl, s, efuel, s', h, hM => by
    simp only [parseSteps] at h
    cases hps : parseStep efuel s (parseItem (b :: tl)).1 with
    | none => rw [hps] at h; simp at h
    | some s1 =>
      rw [hps] at h
      simp only at h
      exact parseSteps_ms steps _ s1 efuel s' h (parseStep_ms efuel s _ s1 hps hM)

/-- Closing out the stack at end of input preserves the reachable-field
multiset. -/
theorem dfsFields_closeAll : ∀ (rest : List OpenColl) (top : OpenColl),
    ((dfsFields (closeAll top rest) : List ReportField) : Multiset ReportField) =
      ((openFields top ++ stackFieldsAux rest : List ReportField) : Multiset ReportField)
  | [], top => by
    simp [closeAll, dfsFields_closeNode, stackFieldsAux]
  | parent :: rr, top => by
    rw [closeAll, dfsFields_closeAll rr _]
    simp only [openFields, stackFieldsAux, dfsForest_append, dfsFields_closeNode]
    simp only [← Multiset.coe_add]
    abel

/-- Destructuring a successful parse into the final loop state. -/
theorem parse_eq_some (efuel : Nat) (bs : List Nat) (t : DescTree)
    (h : parse efuel bs = some t) :
    ∃ s, parseSteps bs.length bs initState efuel = some s ∧
      t = { root := closeAll s.stackTop s.stackRest, index := s.index,
            emitted := s.emitted, source := bs } := by
  unfold parse at h
  cases hps : parseSteps bs.length bs initState efuel with
  | none => rw [hps] at h; exact absurd h (by simp)
  | some s => rw [hps] at h; exact ⟨s, rfl, (Option.some_inj.mp h).symm⟩

/-! ## Push/Pop facts -/

/-- Global items other than Push and Pop leave the saved-state stack
unchanged. -/
theorem applyGlobal_stack (g : GlobalState) (gs : List GlobalState) (it : Item)
    (h10 : it.tag ≠ 10) (h11 : it.tag ≠ 11) :
    (applyGlobal g gs it).2 = gs := by
  unfold applyGlobal
  split_ifs <;> simp_all

/-- A run of non-Push/Pop global items leaves the saved-state stack
unchanged. -/
theorem runGlobals_stack : ∀ (items : List Item) (g0 : GlobalState) (gs0 : List GlobalState),
    (∀ it ∈ items, it.tag ≠ 10 ∧ it.tag ≠ 11) →
    (runGlobals g0 gs0 items).2 = gs0
  | [], _, _, _ => rfl
  | it :: rest, g0, gs0, h => by
    have hit := h it (List.mem_cons_self it rest)
    have hrest : ∀ it' ∈ rest, it'.tag ≠ 10 ∧ it'.tag ≠ 11 :=
      fun it' h' => h it' (List.mem_cons_of_mem it h')
    unfold runGlobals
    rw [List.foldl_cons]
    have := runGlobals_stack rest (applyGlobal g0 gs0 it).1 (applyGlobal g0 gs0 it).2 hrest
    unfold runGlobals at this
    rw [this, applyGlobal_stack g0 gs0 it hit.1 hit.2]

/-! ## Equality of `dump_collection` with the spec's tree-dump format -/

/-- The source's comma-joined usage list matches the spec's
comma-separated hex usages. -/
theorem usagesHexList_spec : ∀ us : List Nat, usagesHexList us = specHexUsages us
  | [] => rfl
  | [_] => rfl
  | u :: v :: rest => by
    have h := usagesHexList_spec (v :: rest)
    simp only [usagesHexList, specHexUsages, List.map_cons, specCommaJoin] at h ⊢
    rw [h]

/-- The source's field line matches the spec's field line. -/
theorem fieldLine_spec (d : Nat) (f : ReportField) :
    specFieldLine d f = specIndent d ++ "  " ++ fieldText f ++ "\n" := by
  unfold specFieldLine fieldText
  by_cases hu : f.usages = []
  · simp [hu, String.append_assoc]
  · simp [hu, usagesHexList_spec, String.append_assoc]

/-- The source's field-lines loop matches the spec's mapped lines. -/
theorem dumpFields_spec (d : Nat) : ∀ fs : List ReportField,
    dumpFields (specIndent d) fs = specJoin (fs.map (specFieldLine d))
  | [] => rfl
  | f :: rest => by
    simp only [dumpFields, List.map_cons, specJoin, fieldLine_spec, dumpFields_spec d rest]

mutual
/-- The `dump_collection` walk produces exactly the spec §4.4 per-collection
format. -/
theorem dumpNode_spec : ∀ (n : CollectionNode) (d : Nat), dumpNode n d = specDumpNode n d
  | .mk _ _ t up u fs cs, d => by
    have hind : String.mk (List.replicate (d * 2) ' ') = specIndent d := by
      rw [specIndent, Nat.mul_comm]
    simp only [dumpNode, specDumpNode, hind, dumpFields_spec d fs, dumpForest_spec cs (d + 1)]
/-- The forest version of `dumpNode_spec`. -/
theorem dumpForest_spec : ∀ (cs : CollectionForest) (d : Nat), dumpForest cs d = specDumpForest cs d
  | .nil, _ => rfl
  | .cons c cs, d => by
    rw [dumpForest, specDumpForest, dumpNode_spec c d, dumpForest_spec cs d]
end

/-! ## Claim theorems -/

/-- C1 (amended): the depth-first tree-dump format of spec §4.4 — one
line per Collection opening with its type name and UsagePage/Usage when
either is nonzero, one line per Field with kind, ReportID, SizeBits,
Count, flags byte and comma-separated hex usages, children indented two
spaces per level — is produced by the internal helper `dump_collection`
(`dumpNode`); `to_string` does not invoke it. -/
theorem C1_dump_collection_format : ∀ (n : CollectionNode) (d : Nat),
    dumpNode n d = specDumpNode n d :=
  dumpNode_spec

/-- C1 counterexample: on the empty descriptor, `to_string` produces the
annotated byte listing terminator, not the (empty) tree dump of spec
§4.4, so `to_string` does not produce the tree dump. -/
theorem C1_counterexample :
    toStr tEmpty = "\n// 0 bytes\n" ∧ specTreeDump tEmpty = ""
      ∧ toStr tEmpty ≠ specTreeDump tEmpty := by
  refine ⟨by decide, by decide, by decide⟩

/-- C2: the claim that `parse` terminates on every byte sequence is
right per the spec's deliberate infallibility, but the code's usage-range
expansion loop uses a wrapping `uint32_t` counter: with Usage Maximum
0xFFFFFFFF followed by an Input item the guard `u <= usage_max` never
fails, so no iteration bound ever suffices — the C++ loop runs forever. -/
theorem C2_expansion_loop_diverges : ∀ efuel : Nat, parse efuel bsLoop = none := by
  intro efuel
  have hmk : mkField efuel ({} : GlobalState)
      ({ usages := [], has_usage_minmax := true, usage_min := 0,
         usage_max := 4294967295 } : LocalState) 8 0 = none := by
    unfold mkField
    simp only
    rw [expandLoop_eq_none 4294967295 (le_refl _) efuel 0 [] (by norm_num)]
    simp
  suffices hs : parseSteps bsLoop.length bsLoop initState efuel = none by
    unfold parse
    rw [hs]
  have h1 : parseSteps bsLoop.length bsLoop initState efuel =
      parseSteps 5 [128]
        ({ l := { usages := [], has_usage_minmax := true, usage_min := 0,
                  usage_max := 4294967295 } } : ParseState) efuel := rfl
  rw [h1]
  have h2 : parseItem [128] = ({ size := 0, type := 0, tag := 8, data := 0 }, ([] : List Nat)) := rfl
  have h3 : parseStep efuel
      ({ l := { usages := [], has_usage_minmax := true, usage_min := 0,
                usage_max := 4294967295 } } : ParseState)
      { size := 0, type := 0, tag := 8, data := 0 } = none := by
    unfold parseStep stepMain
    norm_num
    rw [hmk]
  simp only [parseSteps, h2]
  rw [h3]

/-- C3: on the spec's own minimal mouse descriptor the parsed tree
contains exactly the two Input fields the spec describes, but the
report-ID index stores raw element pointers into the collection's
fields vector: the second `emplace_back` into the Physical collection
reallocates that vector (its size had reached its capacity), so the
first stored pointer records a stale allocation and dereferencing it is
use-after-free (`none`).  `find_by_report_id 0` therefore does not
enumerate the Fields of the tree: the first of its two entries observes
no Field at all. -/
theorem C3_dangling_index_pointer :
    dfsFields tMouse.root =
      [{ kind := .input, report_id := 0, usage_page := 9, usages := [1, 2, 3],
         report_size_bits := 1, report_count := 3, logical_min := 0, logical_max := 1,
         flags := 2 },
       { kind := .input, report_id := 0, usage_page := 9, usages := [],
         report_size_bits := 5, report_count := 1, logical_min := 0, logical_max := 1,
         flags := 3 }]
    ∧ (find_by_report_id tMouse 0).map (derefFieldPtr tMouse) =
        [none,
         some { kind := .input, report_id := 0, usage_page := 9, usages := [],
                report_size_bits := 5, report_count := 1, logical_min := 0, logical_max := 1,
                flags := 3 }] := by
  decide

/-- C4: at a Main Input/Output/Feature item, when the local usage range
flag is set the emitted Field's usages are the inclusive ascending range
from `usage_min` to `usage_max` (empty when `usage_min > usage_max`),
taking precedence over any accumulated local usages; when the flag is
not set they are the accumulated local usages in order. -/
theorem C4_usage_expansion (efuel : Nat) (g : GlobalState) (l : LocalState) (tg dt : Nat)
    (f : ReportField) (hmin : l.usage_min < 4294967296)
    (h : mkField efuel g l tg dt = some f) :
    f.usages = if l.has_usage_minmax then List.range' l.usage_min (l.usage_max + 1 - l.usage_min)
      else l.usages := by
  unfold mkField at h
  by_cases hr : l.has_usage_minmax
  · simp only [hr, if_true] at h ⊢
    cases hex : expandLoop efuel l.usage_min l.usage_max [] with
    | none => rw [hex] at h; exact absurd h (by simp)
    | some us =>
      rw [hex] at h
      obtain rfl := Option.some_inj.mp h
      simpa using expandLoop_eq_some l.usage_max efuel l.usage_min [] us hmin hex
  · simp only [hr, if_false, Bool.false_eq_true] at h ⊢
    by_cases hu : l.usages = []
    · simp only [hu, ne_eq, not_true_eq_false, if_false] at h
      obtain rfl := Option.some_inj.mp h
      simp [hu]
    · simp only [hu, ne_eq, not_false_eq_true, if_true] at h
      obtain rfl := Option.some_inj.mp h
      simp

/-- C4 witness: a usage range 2..4 together with an accumulated local
usage 7 — the range expansion wins. -/
theorem C4_witness :
    mkField 10 {} { usages := [7], has_usage_minmax := true, usage_min := 2, usage_max := 4 } 8 0 =
      some { kind := .input, usages := [2, 3, 4] }
    ∧ ({ kind := .input, usages := [2, 3, 4] } : ReportField).usages =
        (if ({ usages := [7], has_usage_minmax := true, usage_min := 2,
               usage_max := 4 } : LocalState).has_usage_minmax then
          List.range' 2 (4 + 1 - 2)
        else [7]) :=
  ⟨by decide,
   C4_usage_expansion 10 {}
     { usages := [7], has_usage_minmax := true, usage_min := 2, usage_max := 4 } 8 0
     { kind := .input, usages := [2, 3, 4] } (by decide) (by decide)⟩

/-- C5: every Field is a snapshot — on a successful parse the emission
order of fields equals the reference trace that rebuilds each field from
the evaluator's global state immediately before its Main item, and the
field constructor copies every global attribute at that moment. -/
theorem C5_state_locality (efuel : Nat) (bs : List Nat) (t : DescTree)
    (h : parse efuel bs = some t) :
    (specFieldsLoop bs.length bs {} efuel).map Prod.snd = some t.emitted
    ∧ ∀ (g : GlobalState) (l : LocalState) (tg dt : Nat) (f : ReportField),
        mkField efuel g l tg dt = some f →
        f.report_id = g.report_id ∧ f.usage_page = g.usage_page
        ∧ f.report_size_bits = g.report_size_bits ∧ f.report_count = g.report_count
        ∧ f.logical_min = g.logical_min ∧ f.logical_max = g.logical_max
        ∧ f.physical_min = g.physical_min ∧ f.physical_max = g.physical_max
        ∧ f.unit = g.unit ∧ f.unit_exponent = g.unit_exponent := by
  constructor
  · obtain ⟨s, hps, rfl⟩ := parse_eq_some efuel bs t h
    obtain ⟨fs, hspec, hem⟩ := parseSteps_spec bs.length bs initState efuel s hps
    show (specFieldsLoop bs.length bs ⟨initState.g, initState.gstack, initState.l⟩ efuel).map
      Prod.snd = some s.emitted
    rw [hspec, hem]
    simp [initState]
  · intro g l tg dt f hmk
    unfold mkField at hmk
    cases hus : (if l.has_usage_minmax then expandLoop efuel l.usage_min l.usage_max []
        else if l.usages ≠ [] then some l.usages else some []) with
    | none => rw [hus] at hmk; exact absurd hmk (by simp)
    | some us =>
      rw [hus] at hmk
      obtain rfl := Option.some_inj.mp hmk
      simp

/-- C5 witness: the trace statement evaluated on `bsC5`. -/
theorem C5_witness :
    (specFieldsLoop bsC5.length bsC5 {} 0).map Prod.snd = some tC5.emitted :=
  (C5_state_locality 0 bsC5 tC5 (by unfold tC5; exact (Option.some_get _).symm)).1

/-- C6 (amended): a Long Item whose header and D data bytes are present
consumes 3+D bytes in total (prefix, data-size byte, tag byte, D data
bytes) and yields exactly one Reserved item; the concrete 8-byte input
tokenizes as one Reserved item covering 6 bytes followed by one Global
Usage-Page item that sets `usage_page` to 0x01. -/
theorem C6_long_item_consumption (d t : Nat) (rest : List Nat) (hd : d < 256)
    (hr : d ≤ rest.length) :
    parseItem (254 :: d :: t :: rest) =
      ({ size := 255, type := 3, tag := 255, data := 0 }, rest.drop d)
    ∧ (254 :: d :: t :: rest).length - (rest.drop d).length = 3 + d
    ∧ tokenizeAll bsC6 = [{ size := 255, type := 3, tag := 255, data := 0 },
        { size := 1, type := 1, tag := 0, data := 1 }]
    ∧ (parseSteps bsC6.length bsC6 initState 0).map (fun s => s.g.usage_page) = some 1 := by
  refine ⟨?_, ?_, by decide, by decide⟩
  · simp [parseItem, Nat.mod_eq_of_lt hd]
  · simp only [List.length_cons, List.length_drop]
    omega

/-- C6 counterexample: on the concrete 8-byte long-item input, the
tokenizer consumes 6 bytes for the long item, not 2+3 = 5 as the claim's
"2+D bytes in total" formula states. -/
theorem C6_counterexample :
    bsC6.length - ((parseItem bsC6).2).length = 6
    ∧ ¬(bsC6.length - ((parseItem bsC6).2).length = 2 + 3) := by
  decide

/-- C6 witness: the amended statement at D = 3 on the spec's own
long-item example. -/
theorem C6_witness :
    parseItem (254 :: 3 :: 170 :: [17, 34, 51, 5, 1]) =
      ({ size := 255, type := 3, tag := 255, data := 0 }, [17, 34, 51, 5, 1].drop 3)
    ∧ (254 :: 3 :: 170 :: [17, 34, 51, 5, 1]).length - ([17, 34, 51, 5, 1].drop 3).length = 3 + 3
    ∧ tokenizeAll bsC6 = [{ size := 255, type := 3, tag := 255, data := 0 },
        { size := 1, type := 1, tag := 0, data := 1 }]
    ∧ (parseSteps bsC6.length bsC6 initState 0).map (fun s => s.g.usage_page) = some 1 :=
  C6_long_item_consumption 3 170 [17, 34, 51, 5, 1] (by decide) (by decide)

/-- C7: Push followed by any number of non-Push/Pop global items and
then Pop restores the evaluator's global state to its value immediately
before the Push. -/
theorem C7_push_pop_symmetry (g : GlobalState) (gs : List GlobalState) (items : List Item)
    (h : ∀ it ∈ items, it.tag ≠ 10 ∧ it.tag ≠ 11) :
    (applyGlobal
      (runGlobals (applyGlobal g gs pushItem).1 (applyGlobal g gs pushItem).2 items).1
      (runGlobals (applyGlobal g gs pushItem).1 (applyGlobal g gs pushItem).2 items).2
      popItem).1 = g := by
  have hpush : applyGlobal g gs pushItem = (g, g :: gs) := rfl
  rw [hpush]
  have hst := runGlobals_stack items g (g :: gs) h
  rw [hst]
  rfl

/-- C7 witness: Push, one Usage-Page mutation, Pop. -/
theorem C7_witness :
    (applyGlobal
      (runGlobals (applyGlobal {} [] pushItem).1 (applyGlobal {} [] pushItem).2
        [{ size := 1, type := 1, tag := 0, data := 7 }]).1
      (runGlobals (applyGlobal {} [] pushItem).1 (applyGlobal {} [] pushItem).2
        [{ size := 1, type := 1, tag := 0, data := 7 }]).2
      popItem).1 = ({} : GlobalState) :=
  C7_push_pop_symmetry {} [] [{ size := 1, type := 1, tag := 0, data := 7 }] (by decide)

/-- C8: stack underflow is absorbed — a Pop with an empty global-state
stack leaves the global state and stack unchanged, and an End Collection
while only the synthetic root is open leaves the collection stack at the
root and merely clears the local state; both return a state, so parsing
continues. -/
theorem C8_underflow_noop :
    (∀ (g : GlobalState) (sz dat : Nat),
        applyGlobal g [] { size := sz, type := 1, tag := 11, data := dat } = (g, []))
    ∧ (∀ (efuel : Nat) (s : ParseState) (sz dat : Nat), s.stackRest = [] →
        stepMain efuel s { size := sz, type := 0, tag := 12, data := dat } =
          some { s with l := {} }) :=
  ⟨fun _ _ _ => rfl, fun _ s _ _ h => by simp [stepMain, h]⟩

/-- C8 witness: Pop on the empty stack and End Collection at the root,
both on the initial state. -/
theorem C8_witness :
    applyGlobal {} [] popItem = ({}, [])
    ∧ stepMain 0 initState { size := 0, type := 0, tag := 12, data := 0 } =
        some { initState with l := {} } :=
  ⟨C8_underflow_noop.1 {} 0 0, C8_underflow_noop.2 0 initState 0 0 rfl⟩

/-- C9: `device::feature_get` rejects an empty buffer with an
invalid-argument error independently of (hence before) the OS call;
when the OS call returns a non-negative byte count smaller than the
buffer, the call fails with the short-read error; and when the OS call
returns exactly the buffer size, the call succeeds with the OS-filled
buffer. -/
theorem C9_feature_get_errors (buf : List Nat) (os : List Nat → Int × List Nat) :
    (∀ os' : List Nat → Int × List Nat,
        feature_get [] os' = .error (.invalidArgument "Data buffer is empty"))
    ∧ (buf ≠ [] → 0 ≤ (os buf).1 → (os buf).1.toNat < buf.length →
        feature_get buf os = .error (.protocolShort "Incomplete feature report read"))
    ∧ (buf ≠ [] → (os buf).1 = (buf.length : Int) →
        feature_get buf os = .ok (os buf).2) := by
  refine ⟨fun os' => rfl, ?_, ?_⟩
  · intro hbuf hge hlt
    have h0 : ¬buf.length = 0 := by simp [List.length_eq_zero, hbuf]
    have hneg : ¬(os buf).1 < 0 := by omega
    have hne : (os buf).1.toNat ≠ buf.length := by omega
    simp [feature_get, h0, hneg, hne]
  · intro hbuf heq
    have h0 : ¬buf.length = 0 := by simp [List.length_eq_zero, hbuf]
    have hneg : ¬(os buf).1 < 0 := by omega
    have hne : (os buf).1.toNat = buf.length := by omega
    simp [feature_get, h0, hneg, hne]

/-- C9 witness: the three cases on concrete buffers and OS oracles. -/
theorem C9_witness :
    feature_get [] (fun b => ((b.length : Int), b)) =
      .error (.invalidArgument "Data buffer is empty")
    ∧ feature_get [1, 2] (fun _ => (1, [])) =
        .error (.protocolShort "Incomplete feature report read")
    ∧ feature_get [1, 2] (fun b => ((b.length : Int), [9, 9])) = .ok [9, 9] :=
  ⟨(C9_feature_get_errors [] (fun b => ((b.length : Int), b))).1 _,
   (C9_feature_get_errors [1, 2] (fun _ => (1, []))).2.1 (by decide) (by decide) (by decide),
   (C9_feature_get_errors [1, 2] (fun b => ((b.length : Int), [9, 9]))).2.2 (by decide) (by decide)⟩

/-- C10: a long-item prefix 0xFE followed by fewer than its two header
bytes consumes only the prefix and yields the all-zero item — a Main
item with tag 0, size 0 and data 0 — leaving any remaining byte to be
re-tokenized as a fresh prefix; the zero Main item only clears the local
state. -/
theorem C10_truncated_long_header (rest : List Nat) (h : rest.length < 2) :
    parseItem (254 :: rest) = ({ size := 0, type := 0, tag := 0, data := 0 }, rest)
    ∧ (∀ (efuel : Nat) (s : ParseState),
        stepMain efuel s { size := 0, type := 0, tag := 0, data := 0 } =
          some { s with l := {} }) := by
  constructor
  · rcases rest with _ | ⟨x, _ | ⟨y, rest⟩⟩
    · rfl
    · rfl
    · simp only [List.length_cons] at h
      omega
  · intro efuel s
    rfl

/-- C10 witness: the truncated long-item header with one trailing
byte. -/
theorem C10_witness :
    parseItem (254 :: [5]) = ({ size := 0, type := 0, tag := 0, data := 0 }, [5])
    ∧ (∀ (efuel : Nat) (s : ParseState),
        stepMain efuel s { size := 0, type := 0, tag := 0, data := 0 } =
          some { s with l := {} }) :=
  C10_truncated_long_header [5] (by decide)

end HidTool
